import Mathlib

/-!
Verification of the feed-ingestion-and-delivery pipeline of the
Semantic-Machine repository: a shallow embedding in Lean 4 of the
fingerprint function, the RSS item conversion, the article extractor,
the storage repository operations, the ingestion consumer loop and the
per-item body of the feed poller, together with theorems settling the
specified properties.

Sources embedded:
- crates/shared-states/src/rss.rs (RssItem, TryFrom<&Item>)
- crates/shared-states/src/article.rs (extract_article, replace_tags)
- apps/api-server/src/database.rs (impl_store_bulk, impl_read_bulk_by_ids,
  impl_read_bulk_multiple macros, instantiated for RssItem)
- apps/api-server/src/message_queue.rs (RssFeedsProcessor::run)
- apps/rss-worker/src/processor.rs (Processor::process_url, per-item loop)

External collaborators (Postgres upsert semantics, the chrono RFC 2822
date parser, serde deserialization outcomes, scraper document trees) are
embedded by their documented behaviour; machine integers are modelled as
Nat with explicit reduction modulo 2^32 where the source wraps.
-/

namespace SemMach

/-! ## Byte and word helpers (32-bit arithmetic as Nat mod 2^32) -/

/-- Reduce a natural number to 32 bits, as Rust u32 arithmetic wraps. -/
def w32 (n : Nat) : Nat := n % 4294967296

/-- Rotate a 32-bit word right by `b` bits. -/
def rotr32 (b n : Nat) : Nat := w32 ((n >>> b) ||| (n <<< (32 - b)))

/-- Big-endian byte decomposition of a value into `k` bytes. -/
def beBytes : Nat → Nat → List Nat
  | 0, _ => []
  | k + 1, v => beBytes k (v / 256) ++ [v % 256]

/-- Big-endian word from a list of bytes. -/
def beWord (l : List Nat) : Nat := l.foldl (fun acc b => acc * 256 + b) 0

/-- Split a list into consecutive chunks of size `n` (fuel-driven). -/
def chunksOfAux : Nat → Nat → List Nat → List (List Nat)
  | 0, _, _ => []
  | _, _, [] => []
  | fuel + 1, n, l => l.take n :: chunksOfAux fuel n (l.drop n)

/-- Split a list into consecutive chunks of size `n`. -/
def chunksOf (n : Nat) (l : List Nat) : List (List Nat) := chunksOfAux l.length n l

/-! ## SHA-256 (sha2 crate, `Sha256`), over byte lists -/

/-- The 64 SHA-256 round constants. -/
def K256 : List Nat :=
  [1116352408, 1899447441, 3049323471, 3921009573, 961987163, 1508970993,
   2453635748, 2870763221, 3624381080, 310598401, 607225278, 1426881987,
   1925078388, 2162078206, 2614888103, 3248222580, 3835390401, 4022224774,
   264347078, 604807628, 770255983, 1249150122, 1555081692, 1996064986,
   2554220882, 2821834349, 2952996808, 3210313671, 3336571891, 3584528711,
   113926993, 338241895, 666307205, 773529912, 1294757372, 1396182291,
   1695183700, 1986661051, 2177026350, 2456956037, 2730485921, 2820302411,
   3259730800, 3345764771, 3516065817, 3600352804, 4094571909, 275423344,
   430227734, 506948616, 659060556, 883997877, 958139571, 1322822218,
   1537002063, 1747873779, 1955562222, 2024104815, 2227730452, 2361852424,
   2428436474, 2756734187, 3204031479, 3329325298]

/-- Working state of the SHA-256 compression function. -/
structure Sha256State where
  a : Nat
  b : Nat
  c : Nat
  d : Nat
  e : Nat
  f : Nat
  g : Nat
  h : Nat

/-- Initial SHA-256 hash state. -/
def sha256Init : Sha256State :=
  ⟨1779033703, 3144134277, 1013904242,
   2773480762, 1359893119, 2600822924, 528734635, 1541459225⟩

/-- SHA-256 padding: append 0x80, zero fill to 56 mod 64, then the
bit length as 8 big-endian bytes. -/
def sha256Pad (msg : List Nat) : List Nat :=
  let len := msg.length
  let padZeros := (119 - len % 64) % 64
  msg ++ [128] ++ List.replicate padZeros 0 ++ beBytes 8 (8 * len)

/-- Extend a 16-word message block to the 64-word schedule; `k` steps remain. -/
def sha256Extend : Nat → List Nat → List Nat
  | 0, w => w
  | k + 1, w =>
    let n := w.length
    let x15 := w.getD (n - 15) 0
    let x2 := w.getD (n - 2) 0
    let s0 := (rotr32 7 x15) ^^^ (rotr32 18 x15) ^^^ (x15 >>> 3)
    let s1 := (rotr32 17 x2) ^^^ (rotr32 19 x2) ^^^ (x2 >>> 10)
    sha256Extend k (w ++ [w32 (w.getD (n - 16) 0 + s0 + w.getD (n - 7) 0 + s1)])

/-- One SHA-256 compression round with round constant `k` and schedule word `w`. -/
def sha256Round (st : Sha256State) (k : Nat) (w : Nat) : Sha256State :=
  let s1 := (rotr32 6 st.e) ^^^ (rotr32 11 st.e) ^^^ (rotr32 25 st.e)
  let ch := (st.e &&& st.f) ^^^ ((st.e ^^^ 4294967295) &&& st.g)
  let temp1 := w32 (st.h + s1 + ch + k + w)
  let s0 := (rotr32 2 st.a) ^^^ (rotr32 13 st.a) ^^^ (rotr32 22 st.a)
  let maj := (st.a &&& st.b) ^^^ (st.a &&& st.c) ^^^ (st.b &&& st.c)
  let temp2 := w32 (s0 + maj)
  ⟨w32 (temp1 + temp2), st.a, st.b, st.c, w32 (st.d + temp1), st.e, st.f, st.g⟩

/-- Process one 64-byte block. -/
def sha256Block (st : Sha256State) (block : List Nat) : Sha256State :=
  let w := sha256Extend 48 ((chunksOf 4 block).map beWord)
  let t := (K256.zip w).foldl (fun s kw => sha256Round s kw.1 kw.2) st
  ⟨w32 (st.a + t.a), w32 (st.b + t.b), w32 (st.c + t.c), w32 (st.d + t.d),
   w32 (st.e + t.e), w32 (st.f + t.f), w32 (st.g + t.g), w32 (st.h + t.h)⟩

/-- SHA-256 digest (32 bytes) of a byte list. -/
def sha256 (msg : List Nat) : List Nat :=
  let st := (chunksOf 64 (sha256Pad msg)).foldl sha256Block sha256Init
  beBytes 4 st.a ++ beBytes 4 st.b ++ beBytes 4 st.c ++ beBytes 4 st.d ++
  beBytes 4 st.e ++ beBytes 4 st.f ++ beBytes 4 st.g ++ beBytes 4 st.h

/-! ## Lowercase hex encoding (hex crate, `hex::encode`) -/

/-- The sixteen lowercase hex digit characters. -/
def hexChars : List Char := "0123456789abcdef".data

/-- Hex digit character for a nibble. -/
def hexDigit (n : Nat) : Char := hexChars.getD (n % 16) '0'

/-- Lowercase hex encoding of a byte list, two characters per byte. -/
def hexEncode (bytes : List Nat) : String :=
  String.mk ((bytes.map (fun b => [hexDigit (b / 16), hexDigit (b % 16)])).flatten)

/-- UTF-8 bytes of a string, as natural numbers. -/
def strBytes (s : String) : List Nat := s.toUTF8.toList.map (fun b => b.toNat)

/-! ## RFC 2822 date parsing (chrono, `DateTime::parse_from_rfc2822`) -/

/-- Folding whitespace accepted between date tokens. -/
def isWsChar (c : Char) : Bool := c == ' ' || c == '\t' || c == '\r' || c == '\n'

/-- Drop leading whitespace. -/
def skipWs (cs : List Char) : List Char := cs.dropWhile isWsChar

/-- Lowercase a character list into a string. -/
def lowerStr (cs : List Char) : String := String.mk (cs.map Char.toLower)

/-- Decimal value of a digit list. -/
def digitsToNat (ds : List Char) : Nat := ds.foldl (fun acc c => acc * 10 + (c.toNat - 48)) 0

/-- Lowercased short month names, in order. -/
def monthNames : List String :=
  ["jan", "feb", "mar", "apr", "may", "jun", "jul", "aug", "sep", "oct", "nov", "dec"]

/-- Lowercased short weekday names. -/
def dayNames : List String := ["mon", "tue", "wed", "thu", "fri", "sat", "sun"]

/-- Gregorian leap year test. -/
def isLeapYear (y : Int) : Bool := (y % 4 == 0 && y % 100 != 0) || y % 400 == 0

/-- Number of days in a month of a given year. -/
def daysInMonth (y : Int) (m : Nat) : Nat :=
  [31, if isLeapYear y then 29 else 28, 31, 30, 31, 30, 31, 31, 30, 31, 30, 31].getD (m - 1) 0

/-- Days since the Unix epoch of a civil date (standard civil-from-days
inverse, with truncating Int division as in the C++ and Rust versions). -/
def daysFromCivil (y : Int) (m d : Nat) : Int :=
  let y := if m ≤ 2 then y - 1 else y
  let era := (if 0 ≤ y then y else y - 399) / 400
  let yoe := y - era * 400
  let doy : Int := (153 * (if 2 < m then (m : Int) - 3 else (m : Int) + 9) + 2) / 5 + d - 1
  let doe := yoe * 365 + yoe / 4 - yoe / 100 + doy
  era * 146097 + doe - 719468

/-- Offset in minutes of the obsolete named zones chrono accepts; single
letter military zones are read as +0000. The name is given lowercased. -/
def namedZoneOffsetMinutes (z : String) : Option Int :=
  if z = "ut" ∨ z = "gmt" ∨ z = "utc" then some 0
  else if z = "est" then some (-300)
  else if z = "edt" then some (-240)
  else if z = "cst" then some (-360)
  else if z = "cdt" then some (-300)
  else if z = "mst" then some (-420)
  else if z = "mdt" then some (-360)
  else if z = "pst" then some (-480)
  else if z = "pdt" then some (-420)
  else if z.length = 1 then some 0
  else none

/-- Modelled from the documented behaviour of chrono
`DateTime::parse_from_rfc2822` (chrono is an external crate): optional
weekday and comma, one or two digit day, short month name, two to four
digit year (two digit years below 50 read as 20xx, other two and three
digit years as 19xx), HH:MM with optional :SS, then a signed HHMM or
named zone; the result is the UTC epoch millisecond timestamp. CFWS
comments and leap seconds are not modelled; no claim evaluates the
parser on such inputs. An empty input fails at the day digits. -/
def parse2822Core (s : List Char) : Option Int := do
  let cs := skipWs s
  let cs :=
    let (alpha, rest) := cs.span (·.isAlpha)
    if alpha.length == 3 && dayNames.contains (lowerStr alpha) then
      match skipWs rest with
      | ',' :: r2 => skipWs r2
      | _ => cs
    else cs
  let (dayDs, cs) := cs.span (·.isDigit)
  guard (dayDs.length = 1 ∨ dayDs.length = 2)
  let day := digitsToNat dayDs
  let cs := skipWs cs
  let (monthAlpha, cs) := cs.span (·.isAlpha)
  let some monthIdx := monthNames.findIdx? (· == lowerStr monthAlpha) | none
  let month := monthIdx + 1
  let cs := skipWs cs
  let (yearDs, cs) := cs.span (·.isDigit)
  guard (2 ≤ yearDs.length ∧ yearDs.length ≤ 4)
  let yraw := digitsToNat yearDs
  let year : Int :=
    if yearDs.length = 2 then (if yraw < 50 then (yraw : Int) + 2000 else (yraw : Int) + 1900)
    else if yearDs.length = 3 then (yraw : Int) + 1900
    else yraw
  let cs := skipWs cs
  let (hourDs, cs) := cs.span (·.isDigit)
  guard (hourDs.length = 2)
  let hour := digitsToNat hourDs
  let cs ← match skipWs cs with
    | ':' :: r => some (skipWs r)
    | _ => none
  let (minDs, cs) := cs.span (·.isDigit)
  guard (minDs.length = 2)
  let minute := digitsToNat minDs
  let (sec, cs) ← match skipWs cs with
    | ':' :: r =>
      let (secDs, r2) := (skipWs r).span (·.isDigit)
      if secDs.length = 2 then some (digitsToNat secDs, r2) else none
    | r => some (0, r)
  let cs := skipWs cs
  let (offMinutes, cs) ← match cs with
    | '+' :: r =>
      let (ds, r2) := r.span (·.isDigit)
      if ds.length = 4 then
        let v := digitsToNat ds
        if v % 100 ≤ 59 then some (((v / 100) * 60 + v % 100 : Int), r2) else none
      else none
    | '-' :: r =>
      let (ds, r2) := r.span (·.isDigit)
      if ds.length = 4 then
        let v := digitsToNat ds
        if v % 100 ≤ 59 then some ((-((v / 100 : Int) * 60 + v % 100)), r2) else none
      else none
    | r =>
      let (alpha, r2) := r.span (·.isAlpha)
      match namedZoneOffsetMinutes (lowerStr alpha) with
      | some off => some (off, r2)
      | none => none
  guard ((skipWs cs).isEmpty)
  guard (1 ≤ day ∧ day ≤ daysInMonth year month)
  guard (hour ≤ 23 ∧ minute ≤ 59 ∧ sec ≤ 59)
  let secs : Int := daysFromCivil year month day * 86400 +
    (hour : Int) * 3600 + (minute : Int) * 60 + (sec : Int) - offMinutes * 60
  pure (secs * 1000)

/-- chrono `DateTime::parse_from_rfc2822` composed with `timestamp_millis`,
as used by `RssItem::try_from`; a failure carries an error message. -/
def parseRfc2822 (s : String) : Except String Int :=
  match parse2822Core s.data with
  | some millis => .ok millis
  | none => .error ("input is not a valid rfc2822 date: " ++ s)

/-! ## RssItem and its conversion (crates/shared-states/src/rss.rs) -/

/-- The queue subject carrying serialized items (`RSS_QUEUE_NAME`). -/
def RSS_QUEUE_NAME : String := "rss_items"

/-- View of a parsed feed entry (`rss::Item`) through the accessors used by
`RssItem::try_from`: each accessor yields an `Option` (none when the source
field is missing) and categories yield their name strings. -/
structure Entry where
  title : Option String
  link : Option String
  description : Option String
  author : Option String
  pub_date : Option String
  comments : Option String
  categories : List String
deriving DecidableEq

/-- `RssItem` of crates/shared-states/src/rss.rs. -/
structure RssItem where
  hash : String
  title : String
  link : String
  description : String
  published_timestamp : Int
  fetched_timestamp : Int
  comments_url : String
  category : String
  author : String
  article : String
deriving DecidableEq

/-- The fingerprint computed inside `RssItem::try_from`: SHA-256 over the
concatenated UTF-8 bytes of title, author, link, description and the raw
publication date string, each missing field read as the empty string,
then hex encoded. -/
def fingerprint (item : Entry) : String :=
  hexEncode (sha256 (
    strBytes (item.title.getD "") ++
    strBytes (item.author.getD "") ++
    strBytes (item.link.getD "") ++
    strBytes (item.description.getD "") ++
    strBytes (item.pub_date.getD "")))

/-- `impl TryFrom<&Item> for RssItem`: parse the publication date first
(failing the whole conversion when it does not parse), then build the item
with the fingerprint as hash, missing fields as empty strings, the comma
joined category names, and an empty article body. `Utc::now` is passed in
as `now`. -/
def RssItem.try_from (now : Int) (item : Entry) : Except String RssItem :=
  match parseRfc2822 (item.pub_date.getD "") with
  | .error e => .error e
  | .ok publishedMillis =>
    .ok { hash := fingerprint item
          title := item.title.getD ""
          link := item.link.getD ""
          description := item.description.getD ""
          published_timestamp := publishedMillis
          fetched_timestamp := now
          comments_url := item.comments.getD ""
          category := String.intercalate ", " item.categories
          author := item.author.getD ""
          article := "" }

/-! ## Article extractor (crates/shared-states/src/article.rs) -/

/-- A node of a parsed HTML document (a scraper `Html` tree): an element
with a tag name, its class list and its children, or a text node. The
fetch and the HTML parsing are external (reqwest, scraper); extraction is
modelled from the parsed tree. -/
inductive HtmlNode where
  | elem (tag : String) (classes : List String) (children : List HtmlNode)
  | txt (s : String)

mutual

/-- Descendant text nodes of a node in document order (`ElementRef::text`). -/
def textNodes : HtmlNode → List String
  | .txt s => [s]
  | .elem _ _ children => textNodesList children

/-- Descendant text nodes of a node list in document order. -/
def textNodesList : List HtmlNode → List String
  | [] => []
  | n :: ns => textNodes n ++ textNodesList ns

end

mutual

/-- First element matching a selector, pre-order
(`document.select(..).next()`). -/
def firstElem (p : String → List String → Bool) : HtmlNode → Option HtmlNode
  | .txt _ => none
  | .elem t c ch => if p t c then some (.elem t c ch) else firstElemList p ch

/-- First matching element of a node list, pre-order. -/
def firstElemList (p : String → List String → Bool) : List HtmlNode → Option HtmlNode
  | [] => none
  | n :: ns =>
    match firstElem p n with
    | some e => some e
    | none => firstElemList p ns

end

mutual

/-- Every element matching a selector, pre-order (`document.select(..)`). -/
def allElems (p : String → List String → Bool) : HtmlNode → List HtmlNode
  | .txt _ => []
  | .elem t c ch => (if p t c then [HtmlNode.elem t c ch] else []) ++ allElemsList p ch

/-- Every matching element of a node list, pre-order. -/
def allElemsList (p : String → List String → Bool) : List HtmlNode → List HtmlNode
  | [] => []
  | n :: ns => allElems p n ++ allElemsList p ns

end

/-- The selector `article`. -/
def selArticle (tag : String) (_ : List String) : Bool := tag == "article"

/-- The selector `div.post-content`. -/
def selPostContent (tag : String) (classes : List String) : Bool :=
  tag == "div" && classes.contains "post-content"

/-- The selector `div`. -/
def selDiv (tag : String) (_ : List String) : Bool := tag == "div"

/-- Match the regex `</?[^>]+>` right after a consumed `<`: one or more
characters other than `>` and then `>`; returns the remainder. -/
def matchTagNoSlash (cs : List Char) : Option (List Char) :=
  match cs.span (· != '>') with
  | ([], _) => none
  | (_, '>' :: rest) => some rest
  | _ => none

/-- Match the regex `</?[^>]+>` right after a consumed `<`, with the
backtracking of `/?`: when consuming the slash leaves no non `>`
character, the slash itself is matched by `[^>]+`. -/
def matchTag (cs : List Char) : Option (List Char) :=
  match cs with
  | '/' :: rest =>
    match matchTagNoSlash rest with
    | some r => some r
    | none => matchTagNoSlash cs
  | _ => matchTagNoSlash cs

/-- Remove every leftmost non overlapping match of `</?[^>]+>` (the
`re_tags` regex of `replace_tags`); the fuel bounds the recursion and is
never exhausted since every step consumes at least one character. -/
def stripTagsAux : Nat → List Char → List Char
  | 0, cs => cs
  | _, [] => []
  | fuel + 1, c :: cs =>
    if c == '<' then
      match matchTag cs with
      | some rest => stripTagsAux fuel rest
      | none => c :: stripTagsAux fuel cs
    else c :: stripTagsAux fuel cs

/-- Remove every leftmost non overlapping match of `</?[^>]+>`. -/
def stripTags (cs : List Char) : List Char := stripTagsAux (cs.length + 1) cs

/-- Whitespace as tested by the Rust standard library functions used here
(`trim`, `split_whitespace`); the Unicode white space characters beyond
ASCII are not exercised by any claim. -/
def isRustWs (c : Char) : Bool := c == ' ' || c == '\t' || c == '\r' || c == '\n'

/-- Rust `str::trim`, over the characters. -/
def trimRs (s : String) : String :=
  String.mk (((s.data.dropWhile isRustWs).reverse.dropWhile isRustWs).reverse)

/-- UTF-8 encoded byte count of one character. -/
def utf8Len (c : Char) : Nat :=
  if c.toNat < 128 then 1 else if c.toNat < 2048 then 2
  else if c.toNat < 65536 then 3 else 4

/-- Rust `str::len`: the UTF-8 byte length. -/
def byteLen (s : String) : Nat := s.data.foldl (fun n c => n + utf8Len c) 0

/-- Maximal nonempty runs between whitespace, fuel-driven. -/
def wordsOf : Nat → List Char → List String
  | 0, _ => []
  | fuel + 1, cs =>
    match (cs.dropWhile isRustWs).span (fun c => !isRustWs c) with
    | ([], _) => []
    | (w, rest) => String.mk w :: wordsOf fuel rest

/-- Rust `str::split_whitespace`: the maximal nonempty runs between
whitespace characters. -/
def splitWhitespaceRs (s : String) : List String := wordsOf (s.data.length + 1) s.data

/-- `replace_tags` of article.rs: strip the `</?[^>]+>` matches, remove
the pipe characters, and join the whitespace separated words with single
spaces. The Rust function returns a Result but can only fail on regex
compilation (a fixed valid pattern) or UTF-8 reconstruction (removing
ASCII delimited spans preserves UTF-8 validity), so it is modelled total
and the `unwrap_or(content)` fallback at the call site is dead. -/
def replace_tags (content : String) : String :=
  let withoutTags := String.mk (stripTags content.data)
  let withoutPipes := String.mk (withoutTags.data.filter (· != '|'))
  String.intercalate " " (splitWhitespaceRs withoutPipes)

/-- Join text parts with single spaces (`.collect::<Vec<_>>().join(" ")`). -/
def joinSpace (l : List String) : String := String.intercalate " " l

/-- `extract_article` of article.rs, on the parsed document (the children
of the document root): the first `article` element wins and its text
nodes are joined with spaces; else the first `div.post-content` likewise;
else the `div` whose trimmed text is byte-longest (strictly greater wins,
keeping the first maximum; a zero length best is discarded), and only
this fallback result is post-processed by `replace_tags`. The selector
parse failure arms of the source are dead, the fixed selectors being
valid. -/
def extract_article (doc : List HtmlNode) : Except String String :=
  match firstElemList selArticle doc with
  | some element => .ok (joinSpace (textNodes element))
  | none =>
  match firstElemList selPostContent doc with
  | some el2 => .ok (joinSpace (textNodes el2))
  | none =>
    let best := (allElemsList selDiv doc).foldl
      (fun acc dv =>
        let text := String.join (textNodes dv)
        let len := byteLen (trimRs text)
        if len > acc.1 then (len, some text) else acc)
      (0, (none : Option String))
    match best.2 with
    | some content => .ok (replace_tags content)
    | none => .error "No <div> found."

/-! ## Storage repository (apps/api-server/src/database.rs macros,
instantiated for RssItem in message_queue.rs) -/

/-- Logical content of the `rss_items` table, keyed by `hash`. -/
abbrev Table := List RssItem

/-- Duplicate key test among proposed rows: Postgres raises an error when
one ON CONFLICT DO UPDATE command proposes two rows with the same key. -/
def hasDupKeys : List String → Bool
  | [] => false
  | h :: rest => rest.contains h || hasDupKeys rest

/-- Effect of one row of the generated `INSERT .. ON CONFLICT (hash) DO
UPDATE` on the table: when a row with the same hash exists, every non key
column is overwritten with the new values, so the row becomes the new
item (the key being equal); otherwise the row is appended. -/
def upsertRow (t : Table) (r : RssItem) : Table :=
  if t.any (fun x => x.hash == r.hash) then
    t.map (fun x => if x.hash == r.hash then r else x)
  else t ++ [r]

/-- `insert_bulk` generated by `impl_store_bulk!` for RssItem on table
`rss_items` with conflict column `hash`: an empty batch is rejected, then
the generated multi row upsert runs (all columns bound in order, non key
columns overwritten on conflict) and the conflict column of every
affected row is returned. The SQL executes on Postgres; its documented ON
CONFLICT semantics on the logical table is embedded here, including the
command error when the batch itself repeats a key. -/
def insert_bulk (t : Table) (entities : List RssItem) : Except String (Table × List String) :=
  if entities.isEmpty then
    .error "Found zero items to insert into rss_items."
  else if hasDupKeys (entities.map (fun e => e.hash)) then
    .error "ON CONFLICT DO UPDATE command cannot affect row a second time"
  else
    .ok (entities.foldl upsertRow t, entities.map (fun e => e.hash))

/-- `read_bulk_by_ids` generated by `impl_read_bulk_by_ids!` for RssItem:
an empty id list is rejected, else `SELECT .. WHERE hash IN (..)` returns
the matching rows (unknown ids silently omitted), in table order. -/
def read_bulk_by_ids (t : Table) (ids : List String) : Except String (List RssItem) :=
  if ids.isEmpty then
    .error "Found zero identifiers to read from rss_items."
  else
    .ok (t.filter (fun r => ids.contains r.hash))

/-- Column list of the rss_items instantiation. -/
def rssColumns : List String :=
  ["hash", "title", "link", "description", "published_timestamp",
   "fetched_timestamp", "comments_url", "category", "author", "article"]

/-- A generated SQL query together with its bound arguments. -/
structure SqlQuery where
  text : String
  args : List String
deriving DecidableEq

/-- The entries `filter_paginate` keeps: key and value both nonblank
after trimming. -/
def validFilter (kv : String × String) : Bool :=
  !(trimRs kv.1).data.isEmpty && !(trimRs kv.2).data.isEmpty

/-- `filter_paginate` generated by `impl_read_bulk_multiple!` for RssItem:
drop the entries whose key or value trims to nothing, fail when none
remain, else build the equality AND query over the remaining entries with
positional placeholders and bind their values in order. The map argument
is the entry sequence in the iteration order of the Rust HashMap; the
value returned is the query handed to the external database. -/
def filter_paginate (field_map : List (String × String)) (limit offset : Int) :
    Except String SqlQuery :=
  let valid_fields := field_map.filter validFilter
  if valid_fields.isEmpty then
    .error "No valid filters found for rss_items."
  else
    let fields := String.intercalate ", " rssColumns
    let filters := String.intercalate " AND "
      (valid_fields.enum.map (fun p => p.2.1 ++ " = $" ++ toString (p.1 + 1)))
    .ok { text := "SELECT " ++ fields ++ " FROM rss_items WHERE " ++ filters ++
                  " LIMIT " ++ toString limit ++ " OFFSET " ++ toString offset
          args := valid_fields.map (fun kv => kv.2) }

/-! ## Ingestion consumer (apps/api-server/src/message_queue.rs) -/

/-- What the consumer did for one successfully deserialized message. -/
inductive ConsumerEvent where
  | skippedExisting (hash : String)
  | inserted (hash : String)
  | insertFailed (hash : String)
  | readFailed (hash : String)
deriving DecidableEq

/-- How the `run` loop ended; both ends return an error in the source. -/
inductive RunExit where
  | deserializationError
  | subscriberBroken
deriving DecidableEq

/-- Body of the `RssFeedsProcessor::run` loop for one successfully
deserialized item: read the stored rows for its hash; when one exists,
log and continue without touching storage; otherwise attempt the single
item bulk insert, continuing on either outcome. Against the pure table
model the read cannot fail; the error arm of the source (log and continue
with storage untouched) is kept for fidelity. -/
def consumeStep (t : Table) (item : RssItem) : Table × ConsumerEvent :=
  match read_bulk_by_ids t [item.hash] with
  | .error _ => (t, .readFailed item.hash)
  | .ok rows =>
    if !rows.isEmpty then (t, .skippedExisting item.hash)
    else
      match insert_bulk t [item] with
      | .ok (t2, _) => (t2, .inserted item.hash)
      | .error _ => (t, .insertFailed item.hash)

/-- `RssFeedsProcessor::run`: fold over the delivered messages, each
payload given as the outcome of `serde_json::from_slice` (none for a
malformed payload). The `?` on the deserialization propagates the error
out of `run`, ending the loop at that message; an exhausted stream ends
with the broken subscriber error. Returns the final table, the events of
the processed messages in order, and how the loop ended. -/
def runConsumer (t : Table) : List (Option RssItem) → Table × List ConsumerEvent × RunExit
  | [] => (t, [], .subscriberBroken)
  | none :: _ => (t, [], .deserializationError)
  | some item :: rest =>
    let (t2, ev) := consumeStep t item
    let (tf, evs, ex) := runConsumer t2 rest
    (tf, ev :: evs, ex)

/-! ## Feed poller, per item (apps/rss-worker/src/processor.rs) -/

/-- Externally visible actions of the per item poller body, in order. -/
inductive PollerAction where
  | cacheRetrieve (key : String)
  | cacheStore (key : String) (value : String)
  | articleExtract (link : String)
  | publish (subject : String) (item : RssItem)
deriving DecidableEq

/-- Outcomes of the suspending calls made for one item: the dedup cache
get (a transport error, or the stored optional value) and the article
page fetch (a network error, or the parsed document). The cache store and
queue publish outcomes are only logged by the source and do not steer
control flow, so they are not part of the environment. -/
structure ItemEnv where
  retrieveResult : Except String (Option String)
  fetchedDoc : Except String (List HtmlNode)

/-- `RssItem::extract_article_from_source`: fetch the linked page and
extract, assigning the article body only on success; on any failure the
item is left untouched and the error is returned. -/
def extract_article_from_source (it : RssItem) (fetched : Except String (List HtmlNode)) :
    Except String RssItem :=
  match fetched with
  | .error e => .error e
  | .ok doc =>
    match extract_article doc with
    | .error e => .error e
    | .ok text => .ok { it with article := text }

/-- Per item body of `Processor::process_url`: get the fingerprint from
the cache, treating a transport error as a miss; on a hit skip the item;
on a miss mark it seen in the cache (the outcome only logged), attempt
article extraction (keeping the item unchanged on failure, the error only
logged), then publish to the queue (the outcome only logged). Returns the
performed actions in order. -/
def process_item (env : ItemEnv) (it : RssItem) : List PollerAction :=
  let cached : Option String :=
    match env.retrieveResult with
    | .error _ => none
    | .ok value => value
  if cached.isSome then
    [.cacheRetrieve it.hash]
  else
    let afterExtract :=
      match extract_article_from_source it env.fetchedDoc with
      | .ok it2 => it2
      | .error _ => it
    [.cacheRetrieve it.hash, .cacheStore it.hash "", .articleExtract it.link,
     .publish RSS_QUEUE_NAME afterExtract]

/-! ## Concrete instances used by witnesses and counterexamples -/

/-- A feed entry with every optional field missing. -/
def emptyEntry : Entry := ⟨none, none, none, none, none, none, []⟩

/-- A feed entry carrying only a valid publication date. -/
def dateOnlyEntry : Entry :=
  ⟨none, none, none, none, some "Mon, 01 Jan 2024 00:00:00 +0000", none, []⟩

/-- Two feed entries agreeing on the five fingerprint fields and differing
elsewhere. -/
def entryA : Entry :=
  ⟨some "T", some "L", some "D", some "A", some "Tue, 02 Jan 2024 10:00:00 +0000",
   some "commentsA", ["catA"]⟩

/-- Second entry of the fingerprint pair; only comments and categories
differ from `entryA`. -/
def entryB : Entry :=
  ⟨some "T", some "L", some "D", some "A", some "Tue, 02 Jan 2024 10:00:00 +0000",
   some "commentsB", ["catB", "catC"]⟩

/-- A sample stored item. -/
def sampleItem : RssItem := ⟨"h1", "title1", "link1", "desc1", 10, 20, "cu1", "cat1", "au1", ""⟩

/-- A second item with the same hash as `sampleItem` and different values
everywhere else. -/
def sampleItem2 : RssItem := ⟨"h1", "title2", "link2", "desc2", 11, 21, "cu2", "cat2", "au2", "body2"⟩

/-- A third item with the same hash again. -/
def sampleItem3 : RssItem := ⟨"h1", "title3", "link3", "desc3", 12, 22, "cu3", "cat3", "au3", "body3"⟩

/-- An unrelated stored item with a different hash. -/
def otherItem : RssItem := ⟨"h2", "titleX", "linkX", "descX", 30, 40, "cuX", "catX", "auX", "artX"⟩

/-- Document whose `article` element holds the text node `"Hello  World"`. -/
def exArticleDoc : List HtmlNode :=
  [.elem "html" [] [.elem "body" [] [.elem "article" [] [.txt "Hello  World"]]]]

/-- Document with only a `div.post-content` container. -/
def exPostDoc : List HtmlNode :=
  [.elem "html" [] [.elem "body" [] [.elem "div" ["post-content"] [.txt "Post body"]]]]

/-- Document with only a plain `div`, exercising the fallback branch. -/
def exDivDoc : List HtmlNode :=
  [.elem "html" [] [.elem "body" [] [.elem "div" [] [.txt "  A |  B  "]]]]

/-! ## Supporting lemmas -/

theorem beBytes_length (k v : Nat) : (beBytes k v).length = k := by
  induction k generalizing v with
  | zero => rfl
  | succ k ih => simp [beBytes, ih]

theorem sha256_length (msg : List Nat) : (sha256 msg).length = 32 := by
  simp [sha256, beBytes_length]

theorem hexDigit_mem (n : Nat) : hexDigit n ∈ hexChars := by
  have hlt : n % 16 < 16 := Nat.mod_lt _ (by omega)
  have hall : ∀ k, k < 16 → hexChars.getD k '0' ∈ hexChars := by decide
  exact hall (n % 16) hlt

theorem hexEncode_data_length (bytes : List Nat) :
    ((bytes.map (fun b => [hexDigit (b / 16), hexDigit (b % 16)])).flatten).length =
      2 * bytes.length := by
  induction bytes with
  | nil => rfl
  | cons b bs ih =>
    simp only [List.map_cons, List.flatten_cons, List.length_append, List.length_cons,
      List.length_nil, ih, List.length_cons]
    omega

theorem hexEncode_length (bytes : List Nat) : (hexEncode bytes).length = 2 * bytes.length := by
  unfold hexEncode
  rw [show ∀ l : List Char, (String.mk l).length = l.length from fun _ => rfl]
  exact hexEncode_data_length bytes

theorem hexEncode_chars (bytes : List Nat) :
    ∀ c ∈ (hexEncode bytes).data, c ∈ hexChars := by
  intro c hc
  unfold hexEncode at hc
  rw [show ∀ l : List Char, (String.mk l).data = l from fun _ => rfl] at hc
  rcases List.mem_flatten.mp hc with ⟨l, hl, hcl⟩
  rcases List.mem_map.mp hl with ⟨b, hb, hbl⟩
  rw [← hbl] at hcl
  rcases List.mem_cons.mp hcl with h | hcl2
  · exact h ▸ hexDigit_mem _
  · rcases List.mem_cons.mp hcl2 with h | h
    · exact h ▸ hexDigit_mem _
    · exact absurd h (List.not_mem_nil c)

/-! ## Claim theorems -/

/-- C1: two feed entries that agree on title, author, link, description
and the raw published date string (missing fields read as empty strings)
receive equal fingerprints, whatever their other content and whatever the
fetch instants; the fingerprint is a 64 character string of lowercase hex
digits. -/
theorem fingerprint_five_fields (a b : Entry) (n1 n2 : Int)
    (ht : a.title.getD "" = b.title.getD "")
    (ha : a.author.getD "" = b.author.getD "")
    (hl : a.link.getD "" = b.link.getD "")
    (hd : a.description.getD "" = b.description.getD "")
    (hp : a.pub_date.getD "" = b.pub_date.getD "") :
    fingerprint a = fingerprint b ∧
    (RssItem.try_from n1 a).map RssItem.hash = (RssItem.try_from n2 b).map RssItem.hash ∧
    (fingerprint a).length = 64 ∧
    (∀ c ∈ (fingerprint a).data, c ∈ hexChars) := by
  have hfp : fingerprint a = fingerprint b := by
    unfold fingerprint
    rw [ht, ha, hl, hd, hp]
  refine ⟨hfp, ?_, ?_, ?_⟩
  · unfold RssItem.try_from
    rw [hp]
    cases parseRfc2822 (b.pub_date.getD "") with
    | error e => rfl
    | ok v => simp [Except.map, hfp]
  · unfold fingerprint
    rw [hexEncode_length, sha256_length]
  · intro c hc
    exact hexEncode_chars _ c hc

/-- Witness for C1 at two concrete entries differing only in comments and
categories, converted at distinct fetch instants. -/
theorem fingerprint_five_fields_witness :
    fingerprint entryA = fingerprint entryB ∧
    (RssItem.try_from 1 entryA).map RssItem.hash =
      (RssItem.try_from 2 entryB).map RssItem.hash ∧
    (fingerprint entryA).length = 64 ∧
    (∀ c ∈ (fingerprint entryA).data, c ∈ hexChars) :=
  fingerprint_five_fields entryA entryB 1 2 rfl rfl rfl rfl rfl

/-- C5 counterexample: for the entry with every source field missing the
conversion fails (the empty publication date string does not parse as an
RFC 2822 date), so no fingerprint is produced, refuting the claim that a
missing publication date is treated as an empty string with a fingerprint
still produced. -/
theorem try_from_missing_date_counterexample :
    (RssItem.try_from 0 emptyEntry).isOk = false := by decide

/-- C5 (amended): missing title, author, link, description and comment
fields are read as empty strings and never make the conversion fail; but
the publication date must be present and parseable: the conversion first
parses it and fails otherwise, producing no fingerprint. When the date
parses, the item is produced with the fingerprint as hash and every
missing field as the empty string. -/
theorem try_from_missing_fields_amended (e : Entry) (now : Int)
    (hp : (parseRfc2822 (e.pub_date.getD "")).isOk = true) :
    ∃ it, RssItem.try_from now e = .ok it ∧
      it.hash = fingerprint e ∧
      it.title = e.title.getD "" ∧
      it.link = e.link.getD "" ∧
      it.description = e.description.getD "" ∧
      it.author = e.author.getD "" ∧
      it.comments_url = e.comments.getD "" ∧
      it.article = "" := by
  unfold RssItem.try_from
  cases hpr : parseRfc2822 (e.pub_date.getD "") with
  | error err => rw [hpr] at hp; cases hp
  | ok v => exact ⟨_, rfl, rfl, rfl, rfl, rfl, rfl, rfl, rfl⟩

/-- Witness for the amended C5 at an entry carrying only a publication
date. -/
theorem try_from_missing_fields_amended_witness :
    ∃ it, RssItem.try_from 0 dateOnlyEntry = .ok it ∧
      it.hash = fingerprint dateOnlyEntry ∧
      it.title = dateOnlyEntry.title.getD "" ∧
      it.link = dateOnlyEntry.link.getD "" ∧
      it.description = dateOnlyEntry.description.getD "" ∧
      it.author = dateOnlyEntry.author.getD "" ∧
      it.comments_url = dateOnlyEntry.comments.getD "" ∧
      it.article = "" :=
  try_from_missing_fields_amended dateOnlyEntry 0 (by decide)

/-- C4 counterexample: for the document whose `article` element holds the
text `"Hello  World"` the extractor returns the raw `"Hello  World"`,
with the double space intact, not the post-processed `"Hello World"` the
claim states: post-processing does not run on the `article` branch. -/
theorem extract_article_counterexample :
    extract_article exArticleDoc = .ok "Hello  World" ∧
    "Hello  World" ≠ "Hello World" := by
  exact ⟨rfl, by decide⟩

/-- C4 (amended): only the largest-div fallback result is post-processed
by `replace_tags` (tags stripped, pipes removed, whitespace collapsed and
trimmed); the `article` and `div.post-content` branches return their
element text nodes joined with single spaces, unprocessed. In particular
the `article` document with text `"Hello  World"` yields `"Hello  World"`,
the document with only a `div.post-content` yields that div text, and a
document reaching the fallback is post-processed. -/
theorem extract_article_amended :
    (∀ doc element, firstElemList selArticle doc = some element →
      extract_article doc = .ok (joinSpace (textNodes element))) ∧
    (∀ doc el2, firstElemList selArticle doc = none →
      firstElemList selPostContent doc = some el2 →
      extract_article doc = .ok (joinSpace (textNodes el2))) ∧
    extract_article exArticleDoc = .ok "Hello  World" ∧
    extract_article exPostDoc = .ok "Post body" ∧
    extract_article exDivDoc = .ok "A B" := by
  refine ⟨?_, ?_, rfl, rfl, rfl⟩
  · intro doc element h
    unfold extract_article
    rw [h]
  · intro doc el2 h1 h2
    unfold extract_article
    rw [h1, h2]

/-- Witness for the amended C4, applying the article branch at the
concrete document. -/
theorem extract_article_amended_witness :
    extract_article exArticleDoc =
      .ok (joinSpace (textNodes (HtmlNode.elem "article" [] [HtmlNode.txt "Hello  World"]))) :=
  extract_article_amended.1 exArticleDoc (HtmlNode.elem "article" [] [HtmlNode.txt "Hello  World"]) rfl

/-- C3 counterexample: a malformed payload terminates the consumer run at
that message: with a malformed first message and a well formed second one
the run ends at once with the deserialization error, storage untouched
and the second message unprocessed, while the well formed message alone
is inserted; this refutes the claim that the loop continues to the next
message. -/
theorem consumer_malformed_counterexample :
    runConsumer [] [none, some sampleItem] = ([], [], RunExit.deserializationError) ∧
    runConsumer [] [some sampleItem] =
      ([sampleItem], [ConsumerEvent.inserted "h1"], RunExit.subscriberBroken) := by
  exact ⟨rfl, by decide⟩

/-- C3 (amended): in the consumer loop a message whose payload fails to
deserialize is fatal for the whole run, not only for that message: the
`?` propagates the error, the run returns it at once, storage is left as
it was and the remaining messages are not processed. -/
theorem consumer_malformed_terminates (t : Table) (rest : List (Option RssItem)) :
    runConsumer t (none :: rest) = (t, [], RunExit.deserializationError) := rfl

/-! ## Upsert lemmas -/

theorem map_repl_of_no_match (xs : Table) (r : RssItem)
    (h : ∀ y ∈ xs, y.hash ≠ r.hash) :
    xs.map (fun x => if x.hash == r.hash then r else x) = xs := by
  induction xs with
  | nil => rfl
  | cons y ys ih =>
    have hy : (y.hash == r.hash) = false :=
      beq_eq_false_iff_ne.mpr (h y (List.mem_cons_self y ys))
    rw [List.map_cons, hy]
    simp only [Bool.false_eq_true, if_false]
    rw [ih (fun z hz => h z (List.mem_cons_of_mem y hz))]

theorem filter_no_match (xs : Table) (r : RssItem)
    (h : ∀ y ∈ xs, y.hash ≠ r.hash) :
    xs.filter (fun x => x.hash == r.hash) = [] := by
  apply List.filter_eq_nil_iff.mpr
  intro y hy
  simp only [Bool.not_eq_true, beq_eq_false_iff_ne]
  exact h y hy

theorem no_match_of_any_false (t : Table) (r : RssItem)
    (h : t.any (fun x => x.hash == r.hash) = false) :
    ∀ x ∈ t, x.hash ≠ r.hash := by
  intro x hx hEq
  exact (List.any_eq_false.mp h x hx) (beq_iff_eq.mpr hEq)

theorem map_hash_repl (t : Table) (r : RssItem) :
    (t.map (fun x => if x.hash == r.hash then r else x)).map RssItem.hash =
      t.map RssItem.hash := by
  rw [List.map_map]
  apply List.map_congr_left
  intro x _
  by_cases hxr : x.hash = r.hash
  · simp [Function.comp, beq_iff_eq, hxr]
  · simp [Function.comp, beq_iff_eq, hxr]

theorem filter_map_repl (t : Table) (r : RssItem)
    (hnd : (t.map RssItem.hash).Nodup) :
    t.any (fun x => x.hash == r.hash) = true →
    (t.map (fun x => if x.hash == r.hash then r else x)).filter
      (fun x => x.hash == r.hash) = [r] := by
  induction t with
  | nil => intro h; cases h
  | cons x xs ih =>
    intro hany
    rw [List.map_cons] at hnd
    obtain ⟨hnotin, hndtail⟩ := List.nodup_cons.mp hnd
    by_cases hxr : x.hash = r.hash
    · have hb : (x.hash == r.hash) = true := beq_iff_eq.mpr hxr
      have hnomatch : ∀ y ∈ xs, y.hash ≠ r.hash := by
        intro y hy hEq
        apply hnotin
        have hmem : y.hash ∈ xs.map RssItem.hash := List.mem_map_of_mem RssItem.hash hy
        rw [hEq, ← hxr] at hmem
        exact hmem
      simp only [List.map_cons, hb]
      rw [map_repl_of_no_match xs r hnomatch]
      simp [filter_no_match xs r hnomatch]
    · have hb : (x.hash == r.hash) = false := beq_eq_false_iff_ne.mpr hxr
      have hany2 : xs.any (fun y => y.hash == r.hash) = true := by
        simp only [List.any_cons, hb, Bool.false_or] at hany
        exact hany
      simp only [List.map_cons, hb, Bool.false_eq_true, if_false]
      rw [List.filter_cons]
      simp only [hb, Bool.false_eq_true, if_false]
      exact ih hndtail hany2

theorem upsertRow_filter (t : Table) (r : RssItem)
    (hnd : (t.map RssItem.hash).Nodup) :
    (upsertRow t r).filter (fun x => x.hash == r.hash) = [r] := by
  unfold upsertRow
  cases hany : t.any (fun x => x.hash == r.hash) with
  | true =>
    simp only [hany, if_true]
    exact filter_map_repl t r hnd hany
  | false =>
    simp only [hany, Bool.false_eq_true, if_false]
    rw [List.filter_append]
    rw [filter_no_match t r (no_match_of_any_false t r hany)]
    simp

theorem upsertRow_nodup (t : Table) (r : RssItem)
    (hnd : (t.map RssItem.hash).Nodup) :
    ((upsertRow t r).map RssItem.hash).Nodup := by
  unfold upsertRow
  cases hany : t.any (fun x => x.hash == r.hash) with
  | true =>
    simp only [hany, if_true]
    rw [map_hash_repl t r]
    exact hnd
  | false =>
    simp only [hany, Bool.false_eq_true, if_false]
    rw [List.map_append]
    refine List.Nodup.append hnd (List.nodup_singleton _) ?_
    intro a ha hb
    rw [List.map_singleton, List.mem_singleton] at hb
    subst hb
    rcases List.mem_map.mp ha with ⟨x, hx, hxh⟩
    exact (no_match_of_any_false t r hany x hx) hxh

theorem insert_bulk_singleton (t : Table) (i : RssItem) :
    insert_bulk t [i] = .ok (upsertRow t i, [i.hash]) := rfl

/-- C2: the bulk upsert with a single item whose fingerprint may already
be stored leaves exactly one row for that fingerprint, carrying exactly
the new item values (every non key column overwritten); the no duplicate
fingerprint invariant is preserved; and a second single item upsert with
the same fingerprint again leaves exactly one row, now carrying the
second item values. -/
theorem insert_bulk_upsert (t : Table) (i i2 : RssItem)
    (hnd : (t.map RssItem.hash).Nodup) (hkey : i2.hash = i.hash) :
    ∃ t1 t2,
      insert_bulk t [i] = .ok (t1, [i.hash]) ∧
      t1.filter (fun r => r.hash == i.hash) = [i] ∧
      (t1.map RssItem.hash).Nodup ∧
      insert_bulk t1 [i2] = .ok (t2, [i2.hash]) ∧
      t2.filter (fun r => r.hash == i.hash) = [i2] ∧
      (t2.map RssItem.hash).Nodup := by
  refine ⟨upsertRow t i, upsertRow (upsertRow t i) i2,
    insert_bulk_singleton t i,
    upsertRow_filter t i hnd,
    upsertRow_nodup t i hnd,
    insert_bulk_singleton _ i2, ?_, upsertRow_nodup _ i2 (upsertRow_nodup t i hnd)⟩
  have h := upsertRow_filter (upsertRow t i) i2 (upsertRow_nodup t i hnd)
  rw [hkey] at h
  exact h

/-- Witness for C2: two successive single item upserts on a concrete two
row store with the same fingerprint end with exactly the second item as
the unique row for that fingerprint. -/
theorem insert_bulk_upsert_witness :
    (insert_bulk [otherItem, sampleItem] [sampleItem2]).map
      (fun p => p.1.filter (fun r => r.hash == sampleItem2.hash)) = .ok [sampleItem2] := by
  rcases insert_bulk_upsert [otherItem, sampleItem] sampleItem2 sampleItem3
    (by decide) rfl with ⟨t1, t2, h1, h2, _⟩
  rw [h1]
  simpa [Except.map] using h2

/-! ## filter_paginate lemmas -/

theorem filter_paginate_eq_error (m : List (String × String)) (limit offset : Int)
    (h : (m.filter validFilter).isEmpty = true) :
    filter_paginate m limit offset = .error "No valid filters found for rss_items." := by
  unfold filter_paginate
  simp [h]

theorem filter_paginate_eq_ok (m : List (String × String)) (limit offset : Int)
    (h : (m.filter validFilter).isEmpty = false) :
    (filter_paginate m limit offset).map SqlQuery.args =
      .ok ((m.filter validFilter).map (fun kv => kv.2)) := by
  unfold filter_paginate
  simp [h, Except.map]

theorem blank_iff_not_valid (kv : String × String) :
    ¬ (validFilter kv = true) ↔
      ((trimRs kv.1).data.isEmpty = true ∨ (trimRs kv.2).data.isEmpty = true) := by
  simp [validFilter]
  tauto

/-- C9: the filtered paginated read ignores the entries whose key or
value is blank after trimming and fails with the no-valid-filters error
exactly when every entry is blank in that sense (in particular for the
empty map and for a map whose only value is whitespace); otherwise it
issues the equality-AND query binding exactly the values of the remaining
entries, in order. -/
theorem filter_paginate_blank_entries (m : List (String × String)) (limit offset : Int) :
    ((filter_paginate m limit offset).isOk = false ↔
      ∀ kv ∈ m, (trimRs kv.1).data.isEmpty = true ∨ (trimRs kv.2).data.isEmpty = true) ∧
    ((¬ ∀ kv ∈ m, (trimRs kv.1).data.isEmpty = true ∨ (trimRs kv.2).data.isEmpty = true) →
      (filter_paginate m limit offset).map SqlQuery.args =
        .ok ((m.filter validFilter).map (fun kv => kv.2))) := by
  have hiff : ((m.filter validFilter).isEmpty = true) ↔
      ∀ kv ∈ m, (trimRs kv.1).data.isEmpty = true ∨ (trimRs kv.2).data.isEmpty = true := by
    rw [List.isEmpty_iff, List.filter_eq_nil_iff]
    constructor
    · intro h kv hkv
      exact (blank_iff_not_valid kv).mp (h kv hkv)
    · intro h kv hkv
      exact (blank_iff_not_valid kv).mpr (h kv hkv)
  constructor
  · cases hvf : (m.filter validFilter).isEmpty with
    | true =>
      rw [filter_paginate_eq_error m limit offset hvf]
      exact iff_of_true rfl (hiff.mp hvf)
    | false =>
      have hne : ¬ ∀ kv ∈ m,
          (trimRs kv.1).data.isEmpty = true ∨ (trimRs kv.2).data.isEmpty = true := by
        intro hall
        rw [hiff.mpr hall] at hvf
        cases hvf
      apply iff_of_false ?_ hne
      have hok := filter_paginate_eq_ok m limit offset hvf
      intro hcon
      cases hq : filter_paginate m limit offset with
      | error e =>
        rw [hq] at hok
        simp [Except.map] at hok
      | ok q =>
        rw [hq] at hcon
        exact Bool.noConfusion hcon
  · intro hno
    cases hvf : (m.filter validFilter).isEmpty with
    | true => exact absurd (hiff.mp hvf) hno
    | false => exact filter_paginate_eq_ok m limit offset hvf

/-- Witness for C9: the whitespace-valued single entry map fails, and a
single valid entry produces a query binding exactly that value. -/
theorem filter_paginate_blank_entries_witness :
    (filter_paginate [("k", "  ")] 10 0).isOk = false ∧
    (filter_paginate [("title", "x")] 10 0).map SqlQuery.args = .ok ["x"] :=
  ⟨(filter_paginate_blank_entries [("k", "  ")] 10 0).1.mpr (by decide),
   (filter_paginate_blank_entries [("title", "x")] 10 0).2 (by decide)⟩

/-- C10: in the consumer loop, a message whose fingerprint already
matches a stored row is skipped: the step leaves the table exactly as it
was and reports the skip, and this happens precisely when such a row
exists, so the bulk insert runs only when the read-by-ids check found no
row for the fingerprint. -/
theorem consumer_skips_existing (t : Table) (item : RssItem) :
    (∃ r ∈ t, r.hash = item.hash) ↔
      consumeStep t item = (t, ConsumerEvent.skippedExisting item.hash) := by
  have hread : read_bulk_by_ids t [item.hash] =
      .ok (t.filter (fun r => [item.hash].contains r.hash)) := rfl
  have hmem : ∀ r : RssItem, ([item.hash].contains r.hash = true) ↔ r.hash = item.hash := by
    intro r
    simp
  constructor
  · rintro ⟨r, hr, hh⟩
    have hne : t.filter (fun r => [item.hash].contains r.hash) ≠ [] := by
      intro h0
      exact (List.filter_eq_nil_iff.mp h0 r hr) ((hmem r).mpr hh)
    have hfe : (t.filter (fun r => [item.hash].contains r.hash)).isEmpty = false := by
      cases hq : (t.filter (fun r => [item.hash].contains r.hash)).isEmpty with
      | false => rfl
      | true => exact absurd (List.isEmpty_iff.mp hq) hne
    unfold consumeStep
    rw [hread]
    simp [hfe]
    intro hall
    exact absurd hh (hall r hr)
  · intro h
    by_contra hno
    push_neg at hno
    have hfil : t.filter (fun r => [item.hash].contains r.hash) = [] := by
      apply List.filter_eq_nil_iff.mpr
      intro r hr hcon
      exact hno r hr ((hmem r).mp hcon)
    unfold consumeStep at h
    rw [hread] at h
    simp [hfil, insert_bulk_singleton t item] at h
    rcases h with ⟨x, hx, hxe⟩
    exact hno x hx hxe

/-- Witness for C10: redelivering an item whose fingerprint is stored
leaves the store untouched and reports the skip. -/
theorem consumer_skips_existing_witness :
    consumeStep [sampleItem] sampleItem2 =
      ([sampleItem], ConsumerEvent.skippedExisting sampleItem2.hash) :=
  (consumer_skips_existing [sampleItem] sampleItem2).mp ⟨sampleItem, by simp, rfl⟩

/-- C6: a transport failure of the dedup cache get is treated exactly as
a miss: the per item processing is the one of a cache that answered
nothing, the error is not propagated, and the item goes on to the mark
seen store, the extraction attempt and the publish. -/
theorem cache_error_fail_open (env : ItemEnv) (it : RssItem) (e : String)
    (h : env.retrieveResult = .error e) :
    process_item env it = process_item ⟨.ok none, env.fetchedDoc⟩ it ∧
    (PollerAction.cacheStore it.hash "") ∈ process_item env it ∧
    (PollerAction.articleExtract it.link) ∈ process_item env it ∧
    (∃ published, (PollerAction.publish RSS_QUEUE_NAME published) ∈ process_item env it) := by
  obtain ⟨rr, fd⟩ := env
  have h2 : rr = .error e := h
  subst h2
  refine ⟨rfl, ?_, ?_, ?_⟩
  · simp [process_item]
  · simp [process_item]
  · refine ⟨match extract_article_from_source it fd with
      | .ok it2 => it2
      | .error _ => it, ?_⟩
    simp [process_item]

/-- Witness for C6 at a concrete failing cache. -/
theorem cache_error_fail_open_witness :
    process_item ⟨.error "connection refused", .error "net down"⟩ sampleItem =
      process_item ⟨.ok none, .error "net down"⟩ sampleItem ∧
    (PollerAction.cacheStore sampleItem.hash "") ∈
      process_item ⟨.error "connection refused", .error "net down"⟩ sampleItem :=
  ⟨(cache_error_fail_open ⟨.error "connection refused", .error "net down"⟩ sampleItem
      "connection refused" rfl).1,
   (cache_error_fail_open ⟨.error "connection refused", .error "net down"⟩ sampleItem
      "connection refused" rfl).2.1⟩

/-- C7: a dedup cache hit for the item fingerprint makes the poller skip
the item entirely: only the cache get happens, with no cache store, no
extraction and no publish for that item. -/
theorem cache_hit_skips (env : ItemEnv) (it : RssItem) (v : String)
    (h : env.retrieveResult = .ok (some v)) :
    process_item env it = [PollerAction.cacheRetrieve it.hash] ∧
    (∀ k val, (PollerAction.cacheStore k val) ∉ process_item env it) ∧
    (∀ l, (PollerAction.articleExtract l) ∉ process_item env it) ∧
    (∀ s j, (PollerAction.publish s j) ∉ process_item env it) := by
  obtain ⟨rr, fd⟩ := env
  have h2 : rr = .ok (some v) := h
  subst h2
  refine ⟨rfl, ?_, ?_, ?_⟩ <;> intros <;> simp [process_item]

/-- Witness for C7 at a concrete cache hit (the stored sentinel is the
empty string). -/
theorem cache_hit_skips_witness :
    process_item ⟨.ok (some ""), .error "net down"⟩ sampleItem =
      [PollerAction.cacheRetrieve sampleItem.hash] :=
  (cache_hit_skips ⟨.ok (some ""), .error "net down"⟩ sampleItem "" rfl).1

/-- C8: when article extraction fails (a fetch error or an extraction
failure) on a cache miss, the item is still published, unchanged, so with
the empty article body every converted item starts with: the failed
attempt mutates nothing and does not abort the publication; and every
item produced by the conversion has an empty article field. -/
theorem extract_failure_keeps_publishing (env : ItemEnv) (it : RssItem) (e : String)
    (hmiss : env.retrieveResult = .ok none)
    (hfail : extract_article_from_source it env.fetchedDoc = .error e)
    (hart : it.article = "") :
    process_item env it =
      [PollerAction.cacheRetrieve it.hash, PollerAction.cacheStore it.hash "",
       PollerAction.articleExtract it.link, PollerAction.publish RSS_QUEUE_NAME it] ∧
    it.article = "" ∧
    (∀ now entry it0, RssItem.try_from now entry = .ok it0 → it0.article = "") := by
  obtain ⟨rr, fd⟩ := env
  have h2 : rr = .ok none := hmiss
  subst h2
  have hf : extract_article_from_source it fd = .error e := hfail
  refine ⟨?_, hart, ?_⟩
  · simp [process_item, hf]
  · intro now entry it0 h0
    unfold RssItem.try_from at h0
    cases hpr : parseRfc2822 (entry.pub_date.getD "") with
    | error er => rw [hpr] at h0; cases h0
    | ok v => rw [hpr] at h0; cases h0; rfl

/-- Witness for C8: a network failure of the article fetch still ends in
a publish of the unchanged item with its empty article body. -/
theorem extract_failure_keeps_publishing_witness :
    process_item ⟨.ok none, .error "network timeout"⟩ sampleItem =
      [PollerAction.cacheRetrieve sampleItem.hash, PollerAction.cacheStore sampleItem.hash "",
       PollerAction.articleExtract sampleItem.link,
       PollerAction.publish RSS_QUEUE_NAME sampleItem] ∧
    sampleItem.article = "" :=
  ⟨(extract_failure_keeps_publishing ⟨.ok none, .error "network timeout"⟩ sampleItem
      "network timeout" rfl rfl rfl).1,
   (extract_failure_keeps_publishing ⟨.ok none, .error "network timeout"⟩ sampleItem
      "network timeout" rfl rfl rfl).2.1⟩

end SemMach
